import Mathlib

/-!
Verification of the text-measurement and truncation-analysis core of the
Meta Pixel Calculator API (`src/index.js`).  The analyzer `analyzeText` is
embedded shallowly: strings are lists of characters, the canvas metrics
call `ctx.measureText(s).width` is an explicit function parameter, and the
few places where JavaScript number semantics matter (division by zero,
`Math.round`, `Math.floor`) are modelled explicitly.
-/

/-- JavaScript numbers as they occur in the analyzer's arithmetic: a finite
value (modelled as a rational), one of the two infinities, or NaN.  Signed
zero is not distinguished; none of the analyzer's observable results depend
on it. -/
inductive JSNum where
  | nan : JSNum
  | inf : JSNum
  | negInf : JSNum
  | num : ℚ → JSNum
deriving DecidableEq

/-- JavaScript division of two finite numbers: `a / b`, producing NaN for
`0 / 0` and a signed infinity for `a / 0` with `a ≠ 0`. -/
def jsDivQ (a b : ℚ) : JSNum :=
  if b = 0 then (if a = 0 then JSNum.nan else if a < 0 then JSNum.negInf else JSNum.inf)
  else JSNum.num (a / b)

/-- JavaScript division lifted to `JSNum` (NaN propagates; a finite value
divided by an infinity is 0). -/
def JSNum.div : JSNum → JSNum → JSNum
  | JSNum.nan, _ => JSNum.nan
  | _, JSNum.nan => JSNum.nan
  | JSNum.inf, JSNum.inf => JSNum.nan
  | JSNum.inf, JSNum.negInf => JSNum.nan
  | JSNum.negInf, JSNum.inf => JSNum.nan
  | JSNum.negInf, JSNum.negInf => JSNum.nan
  | JSNum.inf, JSNum.num b => if b < 0 then JSNum.negInf else JSNum.inf
  | JSNum.negInf, JSNum.num b => if b < 0 then JSNum.inf else JSNum.negInf
  | JSNum.num _, JSNum.inf => JSNum.num 0
  | JSNum.num _, JSNum.negInf => JSNum.num 0
  | JSNum.num a, JSNum.num b => jsDivQ a b

/-- `Math.floor` lifted to `JSNum`: the floor of a finite value; NaN and the
infinities are returned unchanged. -/
def JSNum.floor : JSNum → JSNum
  | JSNum.num q => JSNum.num ((⌊q⌋ : ℤ) : ℚ)
  | x => x

/-- `Math.round` on a finite JavaScript number: round half up, i.e.
`⌊q + 1/2⌋`. -/
def jsRound (q : ℚ) : ℤ := ⌊q + 1/2⌋

/-- The canvas metrics dependency: `measureTextWidth(text, fontSize,
fontFamily)` from `src/index.js`, i.e. the width reported by
`ctx.measureText` for the given text under the given font configuration.
The analyzer is verified for an arbitrary such function; witnesses
instantiate it with concrete glyph-width tables. -/
def MeasureFn : Type := List Char → ℚ → String → ℚ

/-- The field kinds the analyzer distinguishes (the `type` argument of
`analyzeText`). -/
inductive FieldType where
  | title : FieldType
  | description : FieldType
deriving DecidableEq

/-- One entry of `META_SETTINGS` from `src/index.js`: the display profile
for a field kind. -/
structure MetaSettings where
  fontFamily : String
  fontSize : ℚ
  maxPixels : ℚ
  minPixels : Option ℚ
  visualFontSize : Option ℚ
deriving DecidableEq

/-- The `META_SETTINGS` constant of `src/index.js`: the title profile is
Arial 20px with a 600-pixel budget, the description profile Arial 14px with
a 920-pixel budget and a 430-pixel minimum. -/
def META_SETTINGS : FieldType → MetaSettings
  | FieldType.title =>
    { fontFamily := "Arial", fontSize := 20, maxPixels := 600
      minPixels := none, visualFontSize := some 20 }
  | FieldType.description =>
    { fontFamily := "Arial", fontSize := 14, maxPixels := 920
      minPixels := some 430, visualFontSize := none }

/-- The width function the analyzer actually consults for a field kind: the
metrics function applied at that kind's font size and family. -/
def fontWidth (m : MeasureFn) (ty : FieldType) : List Char → ℚ :=
  fun s => m s (META_SETTINGS ty).fontSize (META_SETTINGS ty).fontFamily

/-- The body of the truncation-scan loop of `analyzeText`: starting from
index `i` with `fuel` iterations available, return the index at which the
`while` loop stops.  One iteration measures the slice of length `i + 1` and
breaks as soon as that slice's width exceeds the budget. -/
def truncLenAux (w : List Char → ℚ) (budget : ℚ) (text : List Char) (i : ℕ) : ℕ → ℕ
  | 0 => i
  | fuel + 1 =>
    if i < text.length then
      if budget < w (text.take (i + 1)) then i
      else truncLenAux w budget text (i + 1) fuel
    else i

/-- The truncation index computed by the scan loop of `analyzeText`: the
loop starts at `i = 0` and runs for at most `text.length` iterations. -/
def truncLen (w : List Char → ℚ) (budget : ℚ) (text : List Char) : ℕ :=
  truncLenAux w budget text 0 text.length

/-- The marker appended to a truncated preview in `analyzeText`: the
three-character string consisting of three ASCII full stops. -/
def ellipsis : List Char := ['.', '.', '.']

/-- The record returned by `analyzeText`.  `minPixels` and `isTooShort` are
options because the corresponding keys are only spread into the result for
description fields; `recommendedMaxChars` is a `JSNum` because the
division `pixelWidth / text.length` can produce NaN for empty input. -/
structure AnalysisResult where
  pixelWidth : ℤ
  characterCount : ℕ
  isTruncated : Bool
  truncatedText : List Char
  isOptimal : Bool
  recommendedMaxChars : JSNum
  maxPixels : ℚ
  minPixels : Option ℚ
  isTooShort : Option Bool
deriving DecidableEq

/-- Shallow embedding of `analyzeText` from `src/index.js` (lines 72 to
114), parametrised by the canvas metrics function.  The raw measured width
is compared against the budgets; only the reported `pixelWidth` field is
rounded.  The truncation scan measures each slice `text.slice(0, i + 1)`
against `maxPixels - 5` and keeps the last index that did not exceed it. -/
def analyzeText (m : MeasureFn) (text : List Char) (ty : FieldType) : AnalysisResult :=
  let s := META_SETTINGS ty
  let pixelWidth : ℚ := m text s.fontSize s.fontFamily
  let isTruncated : Bool := decide (s.maxPixels < pixelWidth)
  let i : ℕ := truncLen (fun t => m t s.fontSize s.fontFamily) (s.maxPixels - 5) text
  let truncatedText : List Char := if isTruncated then text.take i ++ ellipsis else text
  let avgCharWidth : JSNum := jsDivQ pixelWidth (text.length : ℚ)
  let recommendedChars : JSNum := (JSNum.div (JSNum.num s.maxPixels) avgCharWidth).floor
  let isTooShort : Bool :=
    decide (ty = FieldType.description) &&
      (match s.minPixels with
       | some mn => decide (pixelWidth < mn)
       | none => false)
  { pixelWidth := jsRound pixelWidth
    characterCount := text.length
    isTruncated := isTruncated
    truncatedText := if isTruncated then truncatedText else text
    isOptimal := !isTruncated && (!(decide (ty = FieldType.description)) || !isTooShort)
    recommendedMaxChars := recommendedChars
    maxPixels := s.maxPixels
    minPixels := if ty = FieldType.description then s.minPixels else none
    isTooShort := if ty = FieldType.description then some isTooShort else none }

/-- Primitive JSON values that can appear as an item's `id` in a batch
request. -/
inductive JSVal where
  | null : JSVal
  | bool : Bool → JSVal
  | num : ℚ → JSVal
  | str : String → JSVal
deriving DecidableEq

/-- JavaScript truthiness of a `JSVal`: `null`, `false`, `0` and the empty
string are falsy. -/
def JSVal.truthy : JSVal → Bool
  | JSVal.null => false
  | JSVal.bool b => b
  | JSVal.num q => decide (q ≠ 0)
  | JSVal.str s => decide (s ≠ "")

/-- One entry of the `items` array received by the batch endpoint: either a
value that is not an object (`null`, string, number, boolean), or an object
with optional `id`, `title` and `description` keys. -/
inductive BatchItem where
  | nonObject : BatchItem
  | obj : Option JSVal → Option (List Char) → Option (List Char) → BatchItem
deriving DecidableEq

/-- Truthiness of an optional text field of a batch item: present and
non-empty. -/
def fieldTruthy : Option (List Char) → Bool
  | some s => !s.isEmpty
  | none => false

/-- One slot of the batch result sequence.  An `id` of `none` means the key
is absent from the result object (only the non-object error marker omits
it); `title` and `descr` of `none` mean the corresponding analyses were not
produced. -/
structure BatchResult where
  id : Option JSVal
  title : Option AnalysisResult
  descr : Option AnalysisResult
  error : Option String
deriving DecidableEq

/-- The per-item callback of `items.map` in the batch handler of
`src/index.js` (lines 222 to 244): a non-object item becomes an error
marker; an object item gets `id: item.id || null`, an analysis per truthy
field, and an error when both fields are falsy. -/
def processItem (m : MeasureFn) : BatchItem → BatchResult
  | BatchItem.nonObject =>
    { id := none, title := none, descr := none, error := some ("Invalid item format") }
  | BatchItem.obj id t d =>
    { id := some (match id with
        | some v => if v.truthy then v else JSVal.null
        | none => JSVal.null)
      title := if fieldTruthy t then some (analyzeText m (t.getD []) FieldType.title) else none
      descr := if fieldTruthy d then some (analyzeText m (d.getD []) FieldType.description) else none
      error := if !fieldTruthy t && !fieldTruthy d
        then some ("Item must contain either a title or description") else none }

/-- The successful response body of the batch endpoint (the `timestamp`
field is wall-clock output and is not modelled). -/
structure BatchResponse where
  items : List BatchResult
  count : ℕ
deriving DecidableEq

/-- The batch handler of `src/index.js` from the point where the `items`
array has been extracted: an empty array is rejected with a 400 error
(`No items to analyze found in request`); otherwise every item is mapped
through `processItem` and the response carries the results and their
count. -/
def handleBatch (m : MeasureFn) (items : List BatchItem) : Except String BatchResponse :=
  if items.isEmpty then Except.error ("No items to analyze found in request")
  else
    let results := items.map (processItem m)
    Except.ok { items := results, count := results.length }

/-- A simple glyph-metrics model used in witnesses: every character is ten
pixels wide, at every font configuration. -/
def mTen : MeasureFn := fun t _ _ => 10 * (t.length : ℚ)

/-- A glyph-metrics model used for truncation witnesses: every character is
one hundred pixels wide. -/
def mBig : MeasureFn := fun t _ _ => 100 * (t.length : ℚ)

/-- A glyph-metrics model separating the raw width from the rounded width
at the truncation budget: the single character a measures 600.25 pixels. -/
def mC1 : MeasureFn := fun t _ _ => if t = [('a')] then 2401/4 else 0

/-- A glyph-metrics model separating the raw width from the rounded width
at the description minimum: the single character a measures 429.6
pixels. -/
def mC4 : MeasureFn := fun t _ _ => if t = [('a')] then 2148/5 else 0

/-- A glyph-metrics model separating the raw width from the rounded width
in the average-character-width estimate: the single character a measures
10.6 pixels. -/
def mC5 : MeasureFn := fun t _ _ => if t = [('a')] then 53/5 else 0

/-- The two field kinds are distinct. -/
lemma title_ne_descr : FieldType.title ≠ FieldType.description := fun h => nomatch h

/-- Both built-in profiles have a positive pixel budget. -/
lemma maxPixels_pos (ty : FieldType) : 0 < (META_SETTINGS ty).maxPixels := by
  cases ty <;> norm_num [META_SETTINGS]

/-- Both built-in profiles keep a nonnegative budget after reserving the
five ellipsis pixels. -/
lemma ellipsisBudget_nonneg (ty : FieldType) : 0 ≤ (META_SETTINGS ty).maxPixels - 5 := by
  cases ty <;> norm_num [META_SETTINGS]

/-- Dividing two finite JavaScript numbers is the finite division. -/
lemma JSNum.div_num_num (a b : ℚ) :
    JSNum.div (JSNum.num a) (JSNum.num b) = jsDivQ a b := rfl

/-- The `isTruncated` field compares the raw measured width against the
budget. -/
lemma analyzeText_isTruncated (m : MeasureFn) (text : List Char) (ty : FieldType) :
    (analyzeText m text ty).isTruncated =
      decide ((META_SETTINGS ty).maxPixels < fontWidth m ty text) := rfl

/-- The `pixelWidth` field is the rounded raw measured width. -/
lemma analyzeText_pixelWidth (m : MeasureFn) (text : List Char) (ty : FieldType) :
    (analyzeText m text ty).pixelWidth = jsRound (fontWidth m ty text) := rfl

/-- The `characterCount` field is the length of the input. -/
lemma analyzeText_characterCount (m : MeasureFn) (text : List Char) (ty : FieldType) :
    (analyzeText m text ty).characterCount = text.length := rfl

/-- The `maxPixels` field echoes the profile. -/
lemma analyzeText_maxPixels (m : MeasureFn) (text : List Char) (ty : FieldType) :
    (analyzeText m text ty).maxPixels = (META_SETTINGS ty).maxPixels := rfl

/-- The `recommendedMaxChars` field is the floored division of the budget
by the average character width, under JavaScript number semantics. -/
lemma analyzeText_recommendedMaxChars (m : MeasureFn) (text : List Char) (ty : FieldType) :
    (analyzeText m text ty).recommendedMaxChars =
      (JSNum.div (JSNum.num (META_SETTINGS ty).maxPixels)
        (jsDivQ (fontWidth m ty text) (text.length : ℚ))).floor := rfl

/-- The `truncatedText` field as it is literally built: the outer
conditional of the returned record around the conditional of the local
`truncatedText` variable. -/
lemma analyzeText_truncatedText_def (m : MeasureFn) (text : List Char) (ty : FieldType) :
    (analyzeText m text ty).truncatedText =
      (if decide ((META_SETTINGS ty).maxPixels < fontWidth m ty text) = true then
        (if decide ((META_SETTINGS ty).maxPixels < fontWidth m ty text) = true then
          text.take (truncLen (fontWidth m ty) ((META_SETTINGS ty).maxPixels - 5) text) ++
            ellipsis
        else text)
      else text) := rfl

/-- The `truncatedText` field: the input itself when not truncated,
otherwise the scanned-out prefix followed by the three-dot marker. -/
lemma analyzeText_truncatedText (m : MeasureFn) (text : List Char) (ty : FieldType) :
    (analyzeText m text ty).truncatedText =
      if (META_SETTINGS ty).maxPixels < fontWidth m ty text then
        text.take (truncLen (fontWidth m ty) ((META_SETTINGS ty).maxPixels - 5) text) ++ ellipsis
      else text := by
  rw [analyzeText_truncatedText_def]
  by_cases h : (META_SETTINGS ty).maxPixels < fontWidth m ty text
  · simp [h]
  · simp [h]

/-- Loop invariant of the truncation scan: starting at index `i` with every
earlier slice within budget and with enough fuel, the loop's result `r`
satisfies `i ≤ r ≤ length`, every slice of length at most `r` is within
budget, and if the loop stopped before the end then the next slice exceeds
the budget. -/
lemma truncLenAux_spec (w : List Char → ℚ) (budget : ℚ) (text : List Char) :
    ∀ fuel i, i ≤ text.length → text.length ≤ i + fuel →
      (∀ j, 1 ≤ j → j ≤ i → w (text.take j) ≤ budget) →
      i ≤ truncLenAux w budget text i fuel ∧
      truncLenAux w budget text i fuel ≤ text.length ∧
      (∀ j, 1 ≤ j → j ≤ truncLenAux w budget text i fuel → w (text.take j) ≤ budget) ∧
      (truncLenAux w budget text i fuel < text.length →
        budget < w (text.take (truncLenAux w budget text i fuel + 1))) := by
  intro fuel
  induction fuel with
  | zero =>
    intro i hile hlen hinv
    simp only [truncLenAux]
    exact ⟨le_refl i, hile, hinv, fun hlt => absurd hlt (by omega)⟩
  | succ fuel ih =>
    intro i hile hlen hinv
    simp only [truncLenAux]
    by_cases hi : i < text.length
    · simp only [if_pos hi]
      by_cases hw : budget < w (text.take (i + 1))
      · simp only [if_pos hw]
        exact ⟨le_refl i, hile, hinv, fun _ => hw⟩
      · simp only [if_neg hw]
        have hinv2 : ∀ j, 1 ≤ j → j ≤ i + 1 → w (text.take j) ≤ budget := by
          intro j h1 h2
          rcases Nat.lt_or_ge j (i + 1) with h | h
          · exact hinv j h1 (by omega)
          · have hj : j = i + 1 := by omega
            subst hj
            exact le_of_not_lt hw
        obtain ⟨ha, hb, hc, hd⟩ := ih (i + 1) (by omega) (by omega) hinv2
        exact ⟨le_trans (Nat.le_succ i) ha, hb, hc, hd⟩
    · simp only [if_neg hi]
      exact ⟨le_refl i, hile, hinv, fun hlt => absurd hlt hi⟩

/-- Specification of the truncation index: it does not pass the end of the
text, every slice of length up to it is within budget, and when it is an
interior index the next-longer slice exceeds the budget. -/
lemma truncLen_spec (w : List Char → ℚ) (budget : ℚ) (text : List Char) :
    truncLen w budget text ≤ text.length ∧
    (∀ j, 1 ≤ j → j ≤ truncLen w budget text → w (text.take j) ≤ budget) ∧
    (truncLen w budget text < text.length →
      budget < w (text.take (truncLen w budget text + 1))) := by
  have h := truncLenAux_spec w budget text text.length 0 (Nat.zero_le _) (by omega)
    (fun j h1 h2 => absurd h2 (by omega))
  exact ⟨h.2.1, h.2.2.1, h.2.2.2⟩

/-- C1 (counterexample): with a metrics function measuring the single
character a as 600.25 pixels, the analyzer reports `isTruncated = true`
although the rounded measured width — the `pixelWidth` of the result — is
600 and does not strictly exceed `maxPixels = 600`; so `isTruncated` is not
`round(measure(text)) > maxPixels` as the claim states. -/
theorem c1_rounding_counterexample :
    (analyzeText mC1 [('a')] FieldType.title).isTruncated = true ∧
    ¬ ((analyzeText mC1 [('a')] FieldType.title).maxPixels <
        ((analyzeText mC1 [('a')] FieldType.title).pixelWidth : ℚ)) := by
  constructor
  · norm_num [analyzeText, mC1, META_SETTINGS]
  · norm_num [analyzeText, mC1, META_SETTINGS, jsRound]

/-- C1 (amended): for every non-empty text and field kind, `isTruncated` is
true exactly when the raw (unrounded) measured width strictly exceeds the
profile's `maxPixels`; the code compares the measured width before
rounding, and rounds only the reported `pixelWidth`. -/
theorem c1_isTruncated_amended (m : MeasureFn) (text : List Char) (ty : FieldType)
    (hne : text ≠ []) :
    (analyzeText m text ty).isTruncated = true ↔
      (META_SETTINGS ty).maxPixels < fontWidth m ty text := by
  rw [analyzeText_isTruncated]
  exact decide_eq_true_iff

/-- C1 (witness): the amended statement applied to the ten-pixel metrics
model and the one-character text a at the title profile. -/
theorem c1_isTruncated_amended_witness :
    (analyzeText mTen [('a')] FieldType.title).isTruncated = true ↔
      (META_SETTINGS FieldType.title).maxPixels < fontWidth mTen FieldType.title [('a')] :=
  c1_isTruncated_amended mTen [('a')] FieldType.title (by simp)

/-- C2 (counterexample): with a hundred-pixel-per-character metrics model,
a seven-character title is truncated after five characters and the
appended marker is the three ASCII full stops, not the single-character
Unicode horizontal ellipsis the claim names. -/
theorem c2_marker_counterexample :
    truncLen (fontWidth mBig FieldType.title)
        ((META_SETTINGS FieldType.title).maxPixels - 5)
        [('a'),('a'),('a'),('a'),('a'),('a'),('a')] = 5 ∧
    (analyzeText mBig [('a'),('a'),('a'),('a'),('a'),('a'),('a')] FieldType.title).truncatedText =
      [('a'),('a'),('a'),('a'),('a')] ++ ['.', '.', '.'] ∧
    (analyzeText mBig [('a'),('a'),('a'),('a'),('a'),('a'),('a')] FieldType.title).truncatedText ≠
      [('a'),('a'),('a'),('a'),('a')] ++ [('…')] := by
  have h2 : (analyzeText mBig [('a'),('a'),('a'),('a'),('a'),('a'),('a')]
      FieldType.title).truncatedText = [('a'),('a'),('a'),('a'),('a')] ++ ['.', '.', '.'] := by
    norm_num [analyzeText, truncLen, truncLenAux, mBig, META_SETTINGS, ellipsis]
  refine ⟨?_, h2, ?_⟩
  · norm_num [truncLen, truncLenAux, fontWidth, mBig, META_SETTINGS]
  · rw [h2]
    decide

/-- C2 (amended): when the analyzer reports truncation and the metrics
function measures the empty string as zero width, `truncatedText` is the
prefix of the scan index followed by the three-dot ASCII marker; the scan
index is characterised by: every slice up to it is within the reduced
budget `maxPixels - 5`, it lies strictly before the end of the text, the
next-longer slice strictly exceeds the reduced budget, and the retained
prefix itself measures within the reduced budget. -/
theorem c2_truncation_scan_amended (m : MeasureFn) (text : List Char) (ty : FieldType)
    (ht : (analyzeText m text ty).isTruncated = true)
    (h0 : fontWidth m ty [] = 0) :
    (analyzeText m text ty).truncatedText =
      text.take (truncLen (fontWidth m ty) ((META_SETTINGS ty).maxPixels - 5) text) ++
        ellipsis ∧
    (∀ j, 1 ≤ j → j ≤ truncLen (fontWidth m ty) ((META_SETTINGS ty).maxPixels - 5) text →
      fontWidth m ty (text.take j) ≤ (META_SETTINGS ty).maxPixels - 5) ∧
    truncLen (fontWidth m ty) ((META_SETTINGS ty).maxPixels - 5) text < text.length ∧
    (META_SETTINGS ty).maxPixels - 5 <
      fontWidth m ty
        (text.take
          (truncLen (fontWidth m ty) ((META_SETTINGS ty).maxPixels - 5) text + 1)) ∧
    fontWidth m ty
        (text.take (truncLen (fontWidth m ty) ((META_SETTINGS ty).maxPixels - 5) text)) ≤
      (META_SETTINGS ty).maxPixels - 5 := by
  have hraw : (META_SETTINGS ty).maxPixels < fontWidth m ty text := by
    have h := analyzeText_isTruncated m text ty
    rw [ht] at h
    exact of_decide_eq_true h.symm
  obtain ⟨hle, hinv, hstop⟩ :=
    truncLen_spec (fontWidth m ty) ((META_SETTINGS ty).maxPixels - 5) text
  have hlt : truncLen (fontWidth m ty) ((META_SETTINGS ty).maxPixels - 5) text
      < text.length := by
    rcases Nat.lt_or_ge (truncLen (fontWidth m ty) ((META_SETTINGS ty).maxPixels - 5) text)
      text.length with h | h
    · exact h
    · exfalso
      have heq : truncLen (fontWidth m ty) ((META_SETTINGS ty).maxPixels - 5) text
          = text.length := le_antisymm hle h
      rcases Nat.eq_zero_or_pos text.length with hz | hz
      · have htxt : text = [] := List.length_eq_zero.mp hz
        rw [htxt, h0] at hraw
        have := maxPixels_pos ty
        linarith
      · have hbound := hinv text.length (by omega) (by omega)
        rw [List.take_length] at hbound
        linarith
  have hlast : fontWidth m ty
      (text.take (truncLen (fontWidth m ty) ((META_SETTINGS ty).maxPixels - 5) text)) ≤
      (META_SETTINGS ty).maxPixels - 5 := by
    rcases Nat.eq_zero_or_pos
      (truncLen (fontWidth m ty) ((META_SETTINGS ty).maxPixels - 5) text) with hz | hz
    · rw [hz, List.take_zero, h0]
      exact ellipsisBudget_nonneg ty
    · exact hinv _ (by omega) (le_refl _)
  refine ⟨?_, hinv, hlt, hstop hlt, hlast⟩
  rw [analyzeText_truncatedText, if_pos hraw]

/-- C2 (witness): the amended statement applied to the hundred-pixel
metrics model and a seven-character title text. -/
theorem c2_truncation_scan_amended_witness :
    (analyzeText mBig [('a'),('a'),('a'),('a'),('a'),('a'),('a')] FieldType.title).isTruncated
      = true ∧
    fontWidth mBig FieldType.title [] = 0 ∧
    ((analyzeText mBig [('a'),('a'),('a'),('a'),('a'),('a'),('a')]
        FieldType.title).truncatedText =
      [('a'),('a'),('a'),('a'),('a'),('a'),('a')].take
        (truncLen (fontWidth mBig FieldType.title)
          ((META_SETTINGS FieldType.title).maxPixels - 5)
          [('a'),('a'),('a'),('a'),('a'),('a'),('a')]) ++ ellipsis) := by
  refine ⟨by norm_num [analyzeText, mBig, META_SETTINGS], by simp [fontWidth, mBig], ?_⟩
  exact (c2_truncation_scan_amended mBig [('a'),('a'),('a'),('a'),('a'),('a'),('a')]
    FieldType.title (by norm_num [analyzeText, mBig, META_SETTINGS])
    (by simp [fontWidth, mBig])).1

/-- C3 (confirmed): when the analyzer does not report truncation, the
returned `truncatedText` is the input text itself, unchanged. -/
theorem c3_not_truncated_identity (m : MeasureFn) (text : List Char) (ty : FieldType)
    (h : (analyzeText m text ty).isTruncated = false) :
    (analyzeText m text ty).truncatedText = text := by
  rw [analyzeText_isTruncated] at h
  rw [analyzeText_truncatedText, if_neg (of_decide_eq_false h)]

/-- C3 (witness): the ten-pixel metrics model on a one-character title is
not truncated and the preview is the input. -/
theorem c3_not_truncated_identity_witness :
    (analyzeText mTen [('a')] FieldType.title).truncatedText = [('a')] :=
  c3_not_truncated_identity mTen [('a')] FieldType.title
    (by norm_num [analyzeText, mTen, META_SETTINGS])

/-- C4 (counterexample): with a metrics function measuring the single
character a as 429.6 pixels, the description analysis reports
`isTooShort = some true`, although the rounded measured width — the
`pixelWidth` field, 430 — is not strictly below `minPixels = 430`; so
`isTooShort` is not `pixelWidth < minPixels` with `pixelWidth` the rounded
width as the claim states. -/
theorem c4_rounding_counterexample :
    (analyzeText mC4 [('a')] FieldType.description).isTooShort = some true ∧
    (analyzeText mC4 [('a')] FieldType.description).pixelWidth = 430 ∧
    (analyzeText mC4 [('a')] FieldType.description).minPixels = some 430 ∧
    ¬ ((analyzeText mC4 [('a')] FieldType.description).pixelWidth < 430) := by
  refine ⟨?_, ?_, rfl, ?_⟩
  · norm_num [analyzeText, mC4, META_SETTINGS]
  · norm_num [analyzeText, mC4, META_SETTINGS, jsRound]
  · norm_num [analyzeText, mC4, META_SETTINGS, jsRound]

/-- C4 (amended): for every non-empty text, the description analysis
reports `isTooShort` exactly when the raw (unrounded) measured width is
strictly below `minPixels`, echoes `minPixels`, and reports
`isOptimal = !isTruncated && !isTooShort`; the title analysis omits
`isTooShort` and `minPixels` and reports `isOptimal = !isTruncated`. -/
theorem c4_description_fields_amended (m : MeasureFn) (text : List Char)
    (hne : text ≠ []) :
    ((analyzeText m text FieldType.description).isTooShort =
        some (decide (fontWidth m FieldType.description text < 430)) ∧
      (analyzeText m text FieldType.description).minPixels = some 430 ∧
      (analyzeText m text FieldType.description).isOptimal =
        (!(analyzeText m text FieldType.description).isTruncated &&
          !(decide (fontWidth m FieldType.description text < 430)))) ∧
    ((analyzeText m text FieldType.title).isTooShort = none ∧
      (analyzeText m text FieldType.title).minPixels = none ∧
      (analyzeText m text FieldType.title).isOptimal =
        !(analyzeText m text FieldType.title).isTruncated) := by
  refine ⟨⟨rfl, rfl, rfl⟩, rfl, rfl, ?_⟩
  simp [analyzeText, META_SETTINGS]

/-- C4 (witness): the amended statement applied to the ten-pixel metrics
model and the one-character text a. -/
theorem c4_description_fields_amended_witness :
    ((analyzeText mTen [('a')] FieldType.description).isTooShort =
        some (decide (fontWidth mTen FieldType.description [('a')] < 430)) ∧
      (analyzeText mTen [('a')] FieldType.description).minPixels = some 430 ∧
      (analyzeText mTen [('a')] FieldType.description).isOptimal =
        (!(analyzeText mTen [('a')] FieldType.description).isTruncated &&
          !(decide (fontWidth mTen FieldType.description [('a')] < 430)))) ∧
    ((analyzeText mTen [('a')] FieldType.title).isTooShort = none ∧
      (analyzeText mTen [('a')] FieldType.title).minPixels = none ∧
      (analyzeText mTen [('a')] FieldType.title).isOptimal =
        !(analyzeText mTen [('a')] FieldType.title).isTruncated) :=
  c4_description_fields_amended mTen [('a')] (by simp)

/-- C5 (counterexample): with a metrics function measuring the single
character a as 10.6 pixels, the analyzer recommends 56 characters —
`floor(600 / (10.6 / 1))` using the raw width — while the claim's formula
with the rounded width (`pixelWidth = 11`) gives `floor(600 / (11 / 1)) =
54`. -/
theorem c5_rounding_counterexample :
    (analyzeText mC5 [('a')] FieldType.title).recommendedMaxChars = JSNum.num 56 ∧
    (analyzeText mC5 [('a')] FieldType.title).pixelWidth = 11 ∧
    (⌊(600 : ℚ) / ((((11 : ℤ) : ℚ)) / 1)⌋ : ℤ) = 54 ∧
    JSNum.num (56 : ℚ) ≠ JSNum.num (54 : ℚ) := by
  refine ⟨?_, ?_, by norm_num, by norm_num⟩
  · norm_num [analyzeText, mC5, META_SETTINGS, jsDivQ, JSNum.div, JSNum.floor]
  · norm_num [analyzeText, mC5, META_SETTINGS, jsRound]

/-- C5 (amended): for every non-empty text with positive raw measured
width, `recommendedMaxChars` is the finite number
`floor(maxPixels / (rawWidth / characterCount))`, built from the raw
(unrounded) width, and that floor is nonnegative. -/
theorem c5_recommended_chars_amended (m : MeasureFn) (text : List Char) (ty : FieldType)
    (hne : text ≠ []) (hpos : 0 < fontWidth m ty text) :
    (analyzeText m text ty).recommendedMaxChars =
      JSNum.num
        ((⌊(META_SETTINGS ty).maxPixels /
          (fontWidth m ty text / (text.length : ℚ))⌋ : ℤ) : ℚ) ∧
    0 ≤ ⌊(META_SETTINGS ty).maxPixels / (fontWidth m ty text / (text.length : ℚ))⌋ := by
  have hlenpos : (0 : ℚ) < (text.length : ℚ) := by
    exact_mod_cast List.length_pos.mpr hne
  have havgpos : 0 < fontWidth m ty text / (text.length : ℚ) := div_pos hpos hlenpos
  constructor
  · rw [analyzeText_recommendedMaxChars, jsDivQ, if_neg (ne_of_gt hlenpos),
      JSNum.div_num_num, jsDivQ, if_neg (ne_of_gt havgpos)]
    rfl
  · exact Int.le_floor.mpr (by
      push_cast
      exact le_of_lt (div_pos (maxPixels_pos ty) havgpos))

/-- C5 (witness): the amended statement applied to the ten-pixel metrics
model and the one-character text a at the title profile. -/
theorem c5_recommended_chars_amended_witness :
    (analyzeText mTen [('a')] FieldType.title).recommendedMaxChars =
      JSNum.num
        ((⌊(META_SETTINGS FieldType.title).maxPixels /
          (fontWidth mTen FieldType.title [('a')] / (([('a')] : List Char).length : ℚ))⌋
            : ℤ) : ℚ) ∧
    0 ≤ ⌊(META_SETTINGS FieldType.title).maxPixels /
          (fontWidth mTen FieldType.title [('a')] / (([('a')] : List Char).length : ℚ))⌋ :=
  c5_recommended_chars_amended mTen [('a')] FieldType.title (by simp)
    (by norm_num [fontWidth, mTen])

/-- C6 (confirmed): for a metrics function reporting a nonnegative width —
the metrics provider contract — every analysis result has
`characterCount` equal to the input length, `pixelWidth` equal to the
rounded raw width and nonnegative, and `maxPixels` echoed from the
profile. -/
theorem c6_result_shape (m : MeasureFn) (text : List Char) (ty : FieldType)
    (hw : 0 ≤ fontWidth m ty text) :
    (analyzeText m text ty).characterCount = text.length ∧
    (analyzeText m text ty).pixelWidth = jsRound (fontWidth m ty text) ∧
    0 ≤ (analyzeText m text ty).pixelWidth ∧
    (analyzeText m text ty).maxPixels = (META_SETTINGS ty).maxPixels := by
  refine ⟨rfl, rfl, ?_, rfl⟩
  rw [analyzeText_pixelWidth, jsRound]
  exact Int.le_floor.mpr (by push_cast; linarith)

/-- C6 (witness): the shape invariant at the ten-pixel metrics model and
the one-character text a at the title profile. -/
theorem c6_result_shape_witness :
    (analyzeText mTen [('a')] FieldType.title).characterCount =
      ([('a')] : List Char).length ∧
    (analyzeText mTen [('a')] FieldType.title).pixelWidth =
      jsRound (fontWidth mTen FieldType.title [('a')]) ∧
    0 ≤ (analyzeText mTen [('a')] FieldType.title).pixelWidth ∧
    (analyzeText mTen [('a')] FieldType.title).maxPixels =
      (META_SETTINGS FieldType.title).maxPixels :=
  c6_result_shape mTen [('a')] FieldType.title (by norm_num [fontWidth, mTen])

/-- C7 (confirmed): the analyzer is a pure function of the metrics
function, the text and the field kind — two calls with identical inputs
return identical results in every field. -/
theorem c7_deterministic (m n : MeasureFn) (t u : List Char) (ty uy : FieldType)
    (hm : m = n) (ht : t = u) (hty : ty = uy) :
    analyzeText m t ty = analyzeText n u uy := by
  subst hm
  subst ht
  subst hty
  rfl

/-- C7 (witness): determinism at the ten-pixel metrics model and the
one-character title text. -/
theorem c7_deterministic_witness :
    analyzeText mTen [('a')] FieldType.title = analyzeText mTen [('a')] FieldType.title :=
  c7_deterministic mTen mTen [('a')] [('a')] FieldType.title FieldType.title rfl rfl rfl

/-- C8 (counterexample): an empty extracted batch does not succeed — the
handler rejects it with the top-level `No items to analyze found in
request` error instead of returning an empty result sequence. -/
theorem c8_empty_batch_counterexample :
    handleBatch mTen [] = Except.error ("No items to analyze found in request") := rfl

/-- C8 (amended): for every non-empty batch, the handler succeeds with one
result slot per input item in input order (the slot at each index is the
processed item at that index), `count` equal to the number of items, and a
non-object item turned into its own `Invalid item format` error slot
without affecting the others. -/
theorem c8_batch_amended (m : MeasureFn) (items : List BatchItem) (hne : items ≠ []) :
    handleBatch m items =
      Except.ok
        { items := items.map (processItem m), count := (items.map (processItem m)).length } ∧
    (items.map (processItem m)).length = items.length ∧
    (∀ i : ℕ, (items.map (processItem m))[i]? = (items[i]?).map (processItem m)) ∧
    (∀ i : ℕ, items[i]? = some BatchItem.nonObject →
      ((items.map (processItem m))[i]?).map BatchResult.error =
        some (some ("Invalid item format"))) := by
  have hni : items.isEmpty = false := by
    cases items with
    | nil => exact absurd rfl hne
    | cons a l => rfl
  refine ⟨?_, List.length_map _ _, fun i => List.getElem?_map _ _ _, ?_⟩
  · simp only [handleBatch, hni]
    rfl
  · intro i hi
    rw [List.getElem?_map, hi]
    rfl

/-- C8 (witness): a two-item batch, one malformed non-object entry and one
valid object entry, succeeds with two slots and the error marker in the
first slot. -/
theorem c8_batch_amended_witness :
    handleBatch mTen [BatchItem.nonObject,
        BatchItem.obj (some (JSVal.str "1")) (some [('t')]) none] =
      Except.ok
        { items := [BatchItem.nonObject,
            BatchItem.obj (some (JSVal.str "1")) (some [('t')]) none].map (processItem mTen),
          count := ([BatchItem.nonObject,
            BatchItem.obj (some (JSVal.str "1")) (some [('t')]) none].map
              (processItem mTen)).length } ∧
    ([BatchItem.nonObject,
        BatchItem.obj (some (JSVal.str "1")) (some [('t')]) none].map
          (processItem mTen)).length =
      [BatchItem.nonObject,
        BatchItem.obj (some (JSVal.str "1")) (some [('t')]) none].length ∧
    (∀ i : ℕ,
      ([BatchItem.nonObject,
          BatchItem.obj (some (JSVal.str "1")) (some [('t')]) none].map
            (processItem mTen))[i]? =
        ([BatchItem.nonObject,
          BatchItem.obj (some (JSVal.str "1")) (some [('t')]) none][i]?).map
            (processItem mTen)) ∧
    (∀ i : ℕ,
      [BatchItem.nonObject,
        BatchItem.obj (some (JSVal.str "1")) (some [('t')]) none][i]? =
          some BatchItem.nonObject →
      (([BatchItem.nonObject,
          BatchItem.obj (some (JSVal.str "1")) (some [('t')]) none].map
            (processItem mTen))[i]?).map BatchResult.error =
        some (some ("Invalid item format"))) :=
  c8_batch_amended mTen
    [BatchItem.nonObject, BatchItem.obj (some (JSVal.str "1")) (some [('t')]) none]
    (by simp)

/-- C9 (confirmed): for the empty text — with the metrics provider
measuring the empty string as zero, per its contract — the analyzer does
not fail: it returns the complete record with width 0, no truncation, the
empty preview, and the average-width division `0 / 0` propagated as the
NaN `recommendedMaxChars`, matching the treat-as-undefined-and-do-not-crash
behaviour the claim requires. -/
theorem c9_empty_text_total (m : MeasureFn) (ty : FieldType)
    (h0 : fontWidth m ty [] = 0) :
    analyzeText m [] ty =
      { pixelWidth := 0, characterCount := 0, isTruncated := false, truncatedText := [],
        isOptimal := decide (ty = FieldType.title),
        recommendedMaxChars := JSNum.nan,
        maxPixels := (META_SETTINGS ty).maxPixels,
        minPixels := if ty = FieldType.description then some 430 else none,
        isTooShort := if ty = FieldType.description then some true else none } := by
  cases ty <;>
    simp only [fontWidth, META_SETTINGS] at h0 <;>
    norm_num [analyzeText, META_SETTINGS, jsRound, jsDivQ, JSNum.div, JSNum.floor,
      title_ne_descr, h0] <;>
    decide

/-- C9 (witness): the empty text at the title profile under the ten-pixel
metrics model. -/
theorem c9_empty_text_total_witness :
    analyzeText mTen [] FieldType.title =
      { pixelWidth := 0, characterCount := 0, isTruncated := false, truncatedText := [],
        isOptimal := true, recommendedMaxChars := JSNum.nan, maxPixels := 600,
        minPixels := none, isTooShort := none } :=
  c9_empty_text_total mTen FieldType.title (by simp [fontWidth, mTen])

/-- C10 (confirmed): every batch result for an object item carries an `id`
field; it is the item's `id` whenever that value is truthy, and `null`
otherwise — in particular `0`, the empty string and `false` are normalised
to `null`, exactly as a missing `id` is. -/
theorem c10_id_normalization (m : MeasureFn) (t d : Option (List Char)) :
    (∀ v : JSVal, v.truthy = true →
      (processItem m (BatchItem.obj (some v) t d)).id = some v) ∧
    (processItem m (BatchItem.obj (some (JSVal.num 0)) t d)).id = some JSVal.null ∧
    (processItem m (BatchItem.obj (some (JSVal.str "")) t d)).id = some JSVal.null ∧
    (processItem m (BatchItem.obj (some (JSVal.bool false)) t d)).id = some JSVal.null ∧
    (processItem m (BatchItem.obj none t d)).id = some JSVal.null := by
  refine ⟨?_, ?_, ?_, rfl, rfl⟩
  · intro v hv
    simp [processItem, hv]
  · norm_num [processItem, JSVal.truthy]
  · norm_num [processItem, JSVal.truthy]

/-- C10 (witness): a truthy string id is kept, a zero id is normalised to
null. -/
theorem c10_id_normalization_witness :
    (JSVal.str "x").truthy = true ∧
    (processItem mTen (BatchItem.obj (some (JSVal.str "x")) none none)).id =
      some (JSVal.str "x") ∧
    (processItem mTen (BatchItem.obj (some (JSVal.num 0)) none none)).id =
      some JSVal.null :=
  ⟨by decide,
    (c10_id_normalization mTen none none).1 (JSVal.str "x") (by decide),
    (c10_id_normalization mTen none none).2.1⟩
